import Mathlib

/-!
Verification development for the MultiQC odgi-stats module
(`multiqc/modules/odgi/stats.py`).

The module parses fixed-layout tab-separated text reports, keys them by
filename, derives a short group identifier from each filename, and reshapes
the parsed numbers for a summary table and a four-series line chart.

Embedding notes:
* Python strings are modelled as `List Char` (`Str`); literals enter via
  `String.data`, so every operation kernel-evaluates on concrete inputs.
* Python `float()` is modelled exactly on the decimal literals this report
  format contains (optional sign, integer part, optional fractional part):
  the result is the exact rational `num / den` kept as an unreduced pair
  (`PyFloat`), with `PyFloat.toRat` as its numeric reading.  Non-numeric
  strings such as `all_paths` yield `none` (Python raises `ValueError`).
* `str.splitlines` is modelled for `\n`-delimited text (the only line
  terminator appearing in these reports): a trailing newline produces no
  trailing empty line.
* Fallible Python code (IndexError / ValueError on parsing, `sys.exit(1)`
  in `strip_file_name`, the impossible KeyError in `plot_odgi_metrics`)
  is modelled with `Except`.
-/

deriving instance DecidableEq for Except

abbrev Str := List Char

/-- Converts a Lean string literal to the character-list model. -/
def str (s : String) : Str := s.data

/-- Lexicographic comparison by code point, as Python compares `str` values. -/
def strLe : Str → Str → Bool
  | [], _ => true
  | _ :: _, [] => false
  | a :: as, b :: bs => if a.toNat = b.toNat then strLe as bs else decide (a.toNat < b.toNat)

/-- Auxiliary scan for substring containment. -/
def containsSubAux (pat : Str) : List Char → Bool
  | [] => List.isEmpty pat
  | c :: cs => List.isPrefixOf pat (c :: cs) || containsSubAux pat cs

/-- Python `pat in s` on strings: substring containment. -/
def containsSub (s pat : Str) : Bool := containsSubAux pat s

/-- Auxiliary accumulator loop for `splitOnChar`. -/
def splitOnCharAux (sep : Char) : List Char → List Char → List Str
  | [], acc => [acc.reverse]
  | c :: cs, acc =>
    if c = sep then acc.reverse :: splitOnCharAux sep cs []
    else splitOnCharAux sep cs (c :: acc)

/-- Python `s.split(sep)` for a single-character separator. -/
def splitOnChar (sep : Char) (s : Str) : List Str := splitOnCharAux sep s []

/-- Auxiliary accumulator loop for `splitlines`. -/
def splitlinesAux : List Char → List Char → List Str
  | [], acc => if acc.isEmpty then [] else [acc.reverse]
  | c :: cs, acc =>
    if c = '\n' then acc.reverse :: splitlinesAux cs []
    else splitlinesAux cs (c :: acc)

/-- Python `s.splitlines()` for `\n`-delimited text. -/
def splitlines (s : Str) : List Str := splitlinesAux s []

/-- Numeric value of a digit string, most significant digit first. -/
def digitsVal (cs : List Char) : Nat := cs.foldl (fun n c => n * 10 + (c.toNat - 48)) 0

/-- Exact value of a parsed Python float: the rational `num / den`, with
`den` a power of ten.  Kept unnormalised so concrete runs kernel-evaluate. -/
structure PyFloat where
  num : Int
  den : Nat
deriving DecidableEq, Repr

/-- Numeric reading of a parsed float. -/
def PyFloat.toRat (x : PyFloat) : ℚ := x.num / x.den

/-- Python `float(s)` on the plain decimal literals this report format
contains: optional sign, digits, optional `.` and fraction digits, at least
one digit overall.  `none` models the `ValueError` Python raises. -/
def parseFloat (s : Str) : Option PyFloat :=
  match s with
  | [] => none
  | cs =>
    let signAndRest : Int × List Char :=
      match cs with
      | '-' :: r => (-1, r)
      | '+' :: r => (1, r)
      | _ => (1, cs)
    let sign := signAndRest.1
    let rest := signAndRest.2
    let intPart := rest.takeWhile Char.isDigit
    let rest2 := rest.dropWhile Char.isDigit
    match rest2 with
    | [] => if intPart.isEmpty then none else some ⟨sign * digitsVal intPart, 1⟩
    | '.' :: fracRest =>
      let fracPart := fracRest.takeWhile Char.isDigit
      let tail := fracRest.dropWhile Char.isDigit
      if tail.isEmpty && !(intPart.isEmpty && fracPart.isEmpty) then
        some ⟨sign * (digitsVal intPart * 10 ^ fracPart.length + digitsVal fracPart),
              10 ^ fracPart.length⟩
      else none
    | _ => none

/-- FormatError of the spec: an IndexError (missing line or field) or a
ValueError (non-numeric field) while extracting a report. -/
inductive FormatError
  | indexError
  | valueError
deriving DecidableEq, Repr

/-- Fatal termination via `log.error(...)` followed by `sys.exit(code)`. -/
structure FatalExit where
  logMessage : Str
  exitCode : Nat
deriving DecidableEq, Repr

/-- Any error the module can raise while shaping the chart series. -/
inductive RunError
  | format (e : FormatError)
  | fatal (e : FatalExit)
  | keyError
deriving DecidableEq, Repr

/-- The `General stats {fn}` sub-dictionary: the four floats of line 1. -/
structure GeneralStats where
  Length : PyFloat
  Nodes : PyFloat
  Edges : PyFloat
  Paths : PyFloat
deriving DecidableEq, Repr

/-- The `Mean_links_length {fn}` sub-dictionary: line 4 fields, kept as
strings by `compress_stats_data`. -/
structure MeanLinksLength where
  Path : Str
  In_node_space : Str
  In_nucleotide_space : Str
  Num_links_considered : Str
deriving DecidableEq, Repr

/-- The `Sum_of_path_nodes_distances {fn}` sub-dictionary: line 7 fields,
kept as strings by `compress_stats_data`. -/
structure SumOfPathNodesDistances where
  Path : Str
  In_node_space : Str
  In_nucleotide_space : Str
  Nodes : Str
  Nucleotides : Str
  Num_penalties : Str
  Num_penalties_different_orientation : Str
deriving DecidableEq, Repr

/-- All data `compress_stats_data` derives for one file. -/
structure FileReport where
  generalStats : GeneralStats
  meanLinksLength : MeanLinksLength
  sumOfPathNodesDistances : SumOfPathNodesDistances
deriving DecidableEq, Repr

/-- Model of `self.odgi_stats_map`: a Python dict as an insertion-ordered
association list with unique keys. -/
abbrev ReportStore := List (Str × FileReport)

/-- Python dict write `m[k] = v`: replace in place if the key exists,
else append. -/
def dictUpdate {α : Type _} : List (Str × α) → Str → α → List (Str × α)
  | [], k, v => [(k, v)]
  | p :: rest, k, v => if p.1 = k then (k, v) :: rest else p :: dictUpdate rest k v

/-- Python dict read `m[k]` (as an `Option`). -/
def dictLookup {α : Type _} : List (Str × α) → Str → Option α
  | [], _ => none
  | p :: rest, k => if p.1 = k then some p.2 else dictLookup rest k

/-- Python `l[i]`, raising IndexError when out of range. -/
def getIdx {α : Type _} (l : List α) (i : Nat) : Except FormatError α :=
  match l.get? i with
  | some v => .ok v
  | none => .error .indexError

/-- Python `float(l[i])`: IndexError when missing, ValueError when
non-numeric. -/
def getFloat (l : List Str) (i : Nat) : Except FormatError PyFloat :=
  match l.get? i with
  | none => .error .indexError
  | some s =>
    match parseFloat s with
    | none => .error .valueError
    | some v => .ok v

/-- Model of `MultiqcModule.compress_stats_data`: floats the four general-stats
fields, keeps the mean-links-length and path-distance fields as strings,
and returns the single-key dictionary entry for `fn`. -/
def compress_stats_data (fn : Str) (stats mean_links_length sum_of_path_nodes_distances : List Str) :
    Except FormatError (Str × FileReport) := do
  let lengthV ← getFloat stats 0
  let nodesV ← getFloat stats 1
  let edgesV ← getFloat stats 2
  let pathsV ← getFloat stats 3
  let mllPath ← getIdx mean_links_length 0
  let mllNode ← getIdx mean_links_length 1
  let mllNucl ← getIdx mean_links_length 2
  let mllNum ← getIdx mean_links_length 3
  let spndPath ← getIdx sum_of_path_nodes_distances 0
  let spndNode ← getIdx sum_of_path_nodes_distances 1
  let spndNucl ← getIdx sum_of_path_nodes_distances 2
  let spndNodes ← getIdx sum_of_path_nodes_distances 3
  let spndNucls ← getIdx sum_of_path_nodes_distances 4
  let spndPen ← getIdx sum_of_path_nodes_distances 5
  let spndPenDiff ← getIdx sum_of_path_nodes_distances 6
  pure (fn,
    { generalStats := ⟨lengthV, nodesV, edgesV, pathsV⟩
      meanLinksLength := ⟨mllPath, mllNode, mllNucl, mllNum⟩
      sumOfPathNodesDistances :=
        ⟨spndPath, spndNode, spndNucl, spndNodes, spndNucls, spndPen, spndPenDiff⟩ })

/-- Model of `MultiqcModule.parse_odgi_stats_report`, up to the dictionary entry it
produces: split the text into lines, split lines 1, 4 and 7 on tabs, and
compress. -/
def parse_odgi_stats_report (fn text : Str) : Except FormatError (Str × FileReport) := do
  let line1 ← getIdx (splitlines text) 1
  let stats := splitOnChar '\t' line1
  let line4 ← getIdx (splitlines text) 4
  let mean_links_length := splitOnChar '\t' line4
  let line7 ← getIdx (splitlines text) 7
  let sum_of_path_nodes_distances := splitOnChar '\t' line7
  compress_stats_data fn stats mean_links_length sum_of_path_nodes_distances

/-- One iteration of the parsing loop in `__init__`:
`self.odgi_stats_map.update(...)` with the parsed entry.  On failure the
exception propagates and no store is produced. -/
def processRecord (store : ReportStore) (fn text : Str) : Except FormatError ReportStore := do
  let entry ← parse_odgi_stats_report fn text
  pure (dictUpdate store entry.1 entry.2)

/-- The error message and exit status of `strip_file_name`'s failure path. -/
def unknownNameExit : FatalExit :=
  ⟨str "Unknown file name: File name must either contain seqwish, smooth or consensus@!", 1⟩

/-- Model of `MultiqcModule.strip_file_name`: `seqwish` if the name contains
`seqwish.og`, else `smooth` if it contains `smooth`, else the first
dot-separated segment containing `consensus@`; otherwise log and
`sys.exit(1)`. -/
def strip_file_name (fn : Str) : Except FatalExit Str :=
  if containsSub fn (str "seqwish.og") = true then .ok (str "seqwish")
  else if containsSub fn (str "smooth") = true then .ok (str "smooth")
  else
    match (splitOnChar '.' fn).filter (fun e => containsSub e (str "consensus@")) with
    | [] => .error unknownNameExit
    | e :: _ => .ok e

/-- Loop of `plot_general_odgi_stats`: key each file's general stats by its
derived identifier, later files overwriting earlier ones. -/
def plot_general_go : ReportStore → List (Str × GeneralStats) → Except FatalExit (List (Str × GeneralStats))
  | [], data => .ok data
  | p :: rest, data =>
    match strip_file_name p.1 with
    | .error e => .error e
    | .ok uid => plot_general_go rest (dictUpdate data uid p.2.generalStats)

/-- Model of `MultiqcModule.plot_general_odgi_stats`, up to the row mapping handed
to `general_stats_addcols`. -/
def plot_general_odgi_stats (store : ReportStore) : Except FatalExit (List (Str × GeneralStats)) :=
  plot_general_go store []

/-- The Prop form of `strLe`, used for sorting. -/
def strOrder (a b : Str) : Prop := strLe a b = true

instance : DecidableRel strOrder := fun a b => instDecidableEqBool (strLe a b) true

/-- Model of `sorted(self.odgi_stats_map.keys())` followed by the reordering
`odgi_stats_file_names[-2:] + odgi_stats_file_names[:-2]` of
`plot_odgi_metrics`. -/
def reorderFilenames (names : List Str) : List Str :=
  let s := List.insertionSort strOrder names
  s.drop (s.length - 2) ++ s.take (s.length - 2)

/-- The iteration order `sorted_filenames` of `plot_odgi_metrics`. -/
def sorted_filenames (store : ReportStore) : List Str :=
  reorderFilenames (store.map (fun p => p.1))

/-- The four named chart series built by `plot_odgi_metrics`. -/
structure OdgiMetricsSeries where
  in_node_space_mean : List (Str × PyFloat)
  in_nucleotide_space_mean : List (Str × PyFloat)
  in_node_space_sum : List (Str × PyFloat)
  in_nucleotide_space_sum : List (Str × PyFloat)
deriving DecidableEq, Repr

/-- Loop of `plot_odgi_metrics`: for each filename in iteration order, float
the two mean-links-length and the two path-distance fields and key them by
the derived identifier. -/
def metricsGo (store : ReportStore) : List Str → OdgiMetricsSeries → Except RunError OdgiMetricsSeries
  | [], acc => .ok acc
  | fn :: rest, acc =>
    match dictLookup store fn with
    | none => .error .keyError
    | some file_stats =>
      match strip_file_name fn with
      | .error e => .error (.fatal e)
      | .ok uid =>
        match parseFloat file_stats.meanLinksLength.In_node_space with
        | none => .error (.format .valueError)
        | some v1 =>
          match parseFloat file_stats.meanLinksLength.In_nucleotide_space with
          | none => .error (.format .valueError)
          | some v2 =>
            match parseFloat file_stats.sumOfPathNodesDistances.In_node_space with
            | none => .error (.format .valueError)
            | some v3 =>
              match parseFloat file_stats.sumOfPathNodesDistances.In_nucleotide_space with
              | none => .error (.format .valueError)
              | some v4 =>
                metricsGo store rest
                  ⟨dictUpdate acc.in_node_space_mean uid v1,
                   dictUpdate acc.in_nucleotide_space_mean uid v2,
                   dictUpdate acc.in_node_space_sum uid v3,
                   dictUpdate acc.in_nucleotide_space_sum uid v4⟩

/-- Model of `MultiqcModule.plot_odgi_metrics`, up to the four series handed to
`linegraph.plot`. -/
def plot_odgi_metrics (store : ReportStore) : Except RunError OdgiMetricsSeries :=
  metricsGo store (sorted_filenames store) ⟨[], [], [], []⟩

/-- Token `ti` (tab-separated, 0-based) of line `li` (0-based) of a text. -/
def lineToken (text : Str) (li ti : Nat) : Str :=
  (splitOnChar '\t' ((splitlines text).getD li [])).getD ti []

/-! Concrete inputs used to instantiate the theorems below: report texts in
the documented layout, the file reports extraction derives from them, and
small stores. -/

/-- The sample report text of the module's docstring, tab-separated. -/
def sampleText : Str :=
  str "length\tnodes\tedges\tpaths\n8778\t168\t243\t35\n#mean_links_length\npath\tin_node_space\tin_nucleotide_space\tnum_links_considered\nall_paths\t9.75053\t497.321\t942\n#sum_of_path_node_distances\npath\tin_node_space\tin_nucleotide_space\tnodes\tnucleotides\tnum_penalties\tnum_penalties_different_orientation\nall_paths\t20.0686\t19.5609\t977\t51365\t90\t0"

/-- The report extraction derives from `sampleText`. -/
def sampleReport : FileReport :=
  { generalStats := ⟨⟨8778, 1⟩, ⟨168, 1⟩, ⟨243, 1⟩, ⟨35, 1⟩⟩
    meanLinksLength := ⟨str "all_paths", str "9.75053", str "497.321", str "942"⟩
    sumOfPathNodesDistances :=
      ⟨str "all_paths", str "20.0686", str "19.5609", str "977", str "51365", str "90", str "0"⟩ }

/-- A single-record store holding `sampleText`'s report under a
seqwish-convention filename. -/
def sampleStore : ReportStore := [(str "x.seqwish.og.tsv", sampleReport)]

/-- The four chart series `plot_odgi_metrics` builds from `sampleStore`. -/
def sampleSeries : OdgiMetricsSeries :=
  ⟨[(str "seqwish", ⟨975053, 100000⟩)], [(str "seqwish", ⟨497321, 1000⟩)],
   [(str "seqwish", ⟨200686, 10000⟩)], [(str "seqwish", ⟨195609, 10000⟩)]⟩

/-- Like `sampleText`, but line index 1 splits into five fields. -/
def fiveFieldText : Str :=
  str "length\tnodes\tedges\tpaths\n8778\t168\t243\t35\t999\n#mean_links_length\npath\tin_node_space\tin_nucleotide_space\tnum_links_considered\nall_paths\t9.75053\t497.321\t942\n#sum_of_path_node_distances\npath\tin_node_space\tin_nucleotide_space\tnodes\tnucleotides\tnum_penalties\tnum_penalties_different_orientation\nall_paths\t20.0686\t19.5609\t977\t51365\t90\t0"

/-- The report extraction derives from `fiveFieldText`: the fifth field of
line 1 is ignored. -/
def fiveFieldReport : FileReport :=
  { generalStats := ⟨⟨8778, 1⟩, ⟨168, 1⟩, ⟨243, 1⟩, ⟨35, 1⟩⟩
    meanLinksLength := ⟨str "all_paths", str "9.75053", str "497.321", str "942"⟩
    sumOfPathNodesDistances :=
      ⟨str "all_paths", str "20.0686", str "19.5609", str "977", str "51365", str "90", str "0"⟩ }

/-- Like `sampleText`, but the two mean-links-length value fields on line
index 4 are non-numeric strings. -/
def badMeanText : Str :=
  str "length\tnodes\tedges\tpaths\n8778\t168\t243\t35\n#mean_links_length\npath\tin_node_space\tin_nucleotide_space\tnum_links_considered\nall_paths\tfoo\tbar\t942\n#sum_of_path_node_distances\npath\tin_node_space\tin_nucleotide_space\tnodes\tnucleotides\tnum_penalties\tnum_penalties_different_orientation\nall_paths\t20.0686\t19.5609\t977\t51365\t90\t0"

/-- The report extraction derives from `badMeanText`: the non-numeric
fields are stored verbatim. -/
def badMeanReport : FileReport :=
  { generalStats := ⟨⟨8778, 1⟩, ⟨168, 1⟩, ⟨243, 1⟩, ⟨35, 1⟩⟩
    meanLinksLength := ⟨str "all_paths", str "foo", str "bar", str "942"⟩
    sumOfPathNodesDistances :=
      ⟨str "all_paths", str "20.0686", str "19.5609", str "977", str "51365", str "90", str "0"⟩ }

/-- The store after successfully extracting `badMeanText`. -/
def badMeanStore : ReportStore := [(str "x.seqwish.og.tsv", badMeanReport)]

/-- A second report with general stats distinct from `sampleReport`'s,
used to exhibit the overwrite on identifier collisions. -/
def otherReport : FileReport :=
  { generalStats := ⟨⟨999, 1⟩, ⟨11, 1⟩, ⟨22, 1⟩, ⟨33, 1⟩⟩
    meanLinksLength := ⟨str "all_paths", str "1.5", str "2.5", str "10"⟩
    sumOfPathNodesDistances :=
      ⟨str "all_paths", str "3.5", str "4.5", str "5", str "6", str "7", str "8"⟩ }

/-- Two records whose filenames both derive the identifier `smooth`. -/
def collidingStore : ReportStore :=
  [(str "a.smooth.fa.tsv", sampleReport), (str "b.smooth.og.tsv", otherReport)]

/-- The four chart series `plot_odgi_metrics` builds from `collidingStore`:
only the later record's values survive under `smooth`. -/
def collidingSeries : OdgiMetricsSeries :=
  ⟨[(str "smooth", ⟨15, 10⟩)], [(str "smooth", ⟨25, 10⟩)],
   [(str "smooth", ⟨35, 10⟩)], [(str "smooth", ⟨45, 10⟩)]⟩

/-- The three filenames of the spec's series-ordering example. -/
def exampleNames : List Str := [str "a.seqwish.og", str "b.smooth", str "c.consensus@1"]

/-! Helper lemmas: `Except` bind decomposition, list indexing, dictionary
lookup after update, and the order properties of `strLe`. -/

@[simp] theorem exceptBind_eq_ok {ε α β : Type _} (x : Except ε α) (f : α → Except ε β) (b : β) :
    (x >>= f = Except.ok b) ↔ ∃ a, x = Except.ok a ∧ f a = Except.ok b := by
  cases x <;> simp [Bind.bind, Except.bind]

@[simp] theorem exceptPure_eq_ok {ε α : Type _} (a b : α) :
    (pure a : Except ε α) = Except.ok b ↔ a = b := by
  simp [pure, Except.pure]

theorem except_not_ok_error {ε α : Type _} (x : Except ε α) (h : ∀ r, x ≠ Except.ok r) :
    ∃ e, x = Except.error e := by
  cases x
  case error e => exact ⟨e, rfl⟩
  case ok r => exact absurd rfl (h r)

theorem getIdx_eq_ok {α : Type _} {l : List α} {i : Nat} {x : α} :
    getIdx l i = Except.ok x ↔ l.get? i = some x := by
  unfold getIdx
  cases h : l.get? i <;> simp

theorem getFloat_eq_ok {l : List Str} {i : Nat} {v : PyFloat} :
    getFloat l i = Except.ok v ↔ ∃ s, l.get? i = some s ∧ parseFloat s = some v := by
  unfold getFloat
  cases h : l.get? i
  · simp
  case some s =>
    cases hp : parseFloat s <;> simp [hp]

theorem length_le_of_get?_eq_some {α : Type _} {l : List α} {i : Nat} {x : α}
    (h : l.get? i = some x) : i + 1 ≤ l.length := by
  by_contra hc
  rw [List.get?_eq_none.mpr (by omega)] at h
  exact Option.noConfusion h

theorem getD_eq_of_get?_eq_some {α : Type _} {l : List α} {i : Nat} {x : α} (d : α)
    (h : l.get? i = some x) : l.getD i d = x := by
  simp only [List.getD, ← List.get?_eq_getElem?, h, Option.getD_some]

theorem dictLookup_dictUpdate {α : Type _} (m : List (Str × α)) (k k' : Str) (v : α) :
    dictLookup (dictUpdate m k v) k' = if k = k' then some v else dictLookup m k' := by
  induction m with
  | nil => simp [dictUpdate, dictLookup]
  | cons p rest ih =>
    by_cases hp : p.1 = k
    · subst hp
      by_cases h' : p.1 = k' <;> simp [dictUpdate, dictLookup, h']
    · simp only [dictUpdate, if_neg hp, dictLookup, ih]
      split_ifs with h1 h2
      · exact absurd (h1.trans h2.symm) hp
      · rfl
      · rfl
      · rfl

theorem dictLookup_dictUpdate_self {α : Type _} (m : List (Str × α)) (k : Str) (v : α) :
    dictLookup (dictUpdate m k v) k = some v := by
  rw [dictLookup_dictUpdate, if_pos rfl]

theorem dictLookup_dictUpdate_other {α : Type _} (m : List (Str × α)) (k k' : Str) (v : α)
    (h : k' ≠ k) : dictLookup (dictUpdate m k v) k' = dictLookup m k' := by
  rw [dictLookup_dictUpdate, if_neg (fun hc => h hc.symm)]

theorem dictLookup_of_mem_nodup {α : Type _} {m : List (Str × α)} {k : Str} {v : α}
    (hmem : (k, v) ∈ m) (hnodup : (m.map (fun p => p.1)).Nodup) :
    dictLookup m k = some v := by
  induction m with
  | nil => cases hmem
  | cons p rest ih =>
    simp only [List.map_cons, List.nodup_cons] at hnodup
    rcases List.mem_cons.mp hmem with heq | hrest
    · simp [dictLookup, ← heq]
    · have hne : p.1 ≠ k := by
        intro hc
        exact hnodup.1 (hc ▸ List.mem_map.mpr ⟨(k, v), hrest, rfl⟩)
      simp [dictLookup, hne, ih hrest hnodup.2]

theorem strLe_total (a b : Str) : strLe a b = true ∨ strLe b a = true := by
  induction a generalizing b with
  | nil => left; rfl
  | cons x xs ih =>
    cases b with
    | nil => right; rfl
    | cons y ys =>
      by_cases h : x.toNat = y.toNat
      · rcases ih ys with h' | h'
        · left
          simp only [strLe, if_pos h]
          exact h'
        · right
          simp only [strLe, if_pos h.symm]
          exact h'
      · rcases Nat.lt_or_ge x.toNat y.toNat with hlt | hge
        · left
          simp only [strLe, if_neg h, decide_eq_true_eq]
          exact hlt
        · right
          have hne : y.toNat ≠ x.toNat := fun hc => h hc.symm
          simp only [strLe, if_neg hne, decide_eq_true_eq]
          omega

theorem strLe_trans {a b c : Str} (hab : strLe a b = true) (hbc : strLe b c = true) :
    strLe a c = true := by
  induction a generalizing b c with
  | nil => rfl
  | cons x xs ih =>
    cases b with
    | nil => exact absurd hab (by simp [strLe])
    | cons y ys =>
      cases c with
      | nil => exact absurd hbc (by simp [strLe])
      | cons z zs =>
        simp only [strLe] at hab hbc ⊢
        by_cases hxy : x.toNat = y.toNat
        · rw [if_pos hxy] at hab
          by_cases hyz : y.toNat = z.toNat
          · rw [if_pos hyz] at hbc
            rw [if_pos (hxy.trans hyz)]
            exact ih hab hbc
          · rw [if_neg hyz, decide_eq_true_eq] at hbc
            rw [if_neg (by omega), decide_eq_true_eq]
            omega
        · rw [if_neg hxy, decide_eq_true_eq] at hab
          by_cases hyz : y.toNat = z.toNat
          · rw [if_neg (by omega), decide_eq_true_eq]
            omega
          · rw [if_neg hyz, decide_eq_true_eq] at hbc
            rw [if_neg (by omega), decide_eq_true_eq]
            omega

instance : IsTotal Str strOrder := ⟨fun a b => strLe_total a b⟩

instance : IsTrans Str strOrder := ⟨fun _ _ _ hab hbc => strLe_trans hab hbc⟩

instance : IsRefl Str strOrder :=
  ⟨fun a => by rcases strLe_total a a with h | h <;> exact h⟩

/-! Decomposition of a successful extraction into facts about the
designated lines and tokens of the record's text. -/

theorem get?_eq_some_getD {α : Type _} {l : List α} {i : Nat} (d : α) (h : i < l.length) :
    l.get? i = some (l.getD i d) := by
  simp [List.getD, List.get?_eq_getElem?, List.getElem?_eq_getElem h]

theorem parse_ok_spec {fn text fn' : Str} {rep : FileReport}
    (h : parse_odgi_stats_report fn text = Except.ok (fn', rep)) :
    fn' = fn
    ∧ parseFloat (lineToken text 1 0) = some rep.generalStats.Length
    ∧ parseFloat (lineToken text 1 1) = some rep.generalStats.Nodes
    ∧ parseFloat (lineToken text 1 2) = some rep.generalStats.Edges
    ∧ parseFloat (lineToken text 1 3) = some rep.generalStats.Paths
    ∧ rep.meanLinksLength.In_node_space = lineToken text 4 1
    ∧ rep.meanLinksLength.In_nucleotide_space = lineToken text 4 2
    ∧ rep.sumOfPathNodesDistances.In_node_space = lineToken text 7 1
    ∧ rep.sumOfPathNodesDistances.In_nucleotide_space = lineToken text 7 2 := by
  simp only [parse_odgi_stats_report, compress_stats_data, exceptBind_eq_ok, exceptPure_eq_ok,
    getIdx_eq_ok, getFloat_eq_ok] at h
  obtain ⟨l1, hl1, l4, hl4, l7, hl7, v0, ⟨s0, hs0, hp0⟩, v1, ⟨s1, hs1, hp1⟩, v2, ⟨s2, hs2, hp2⟩,
    v3, ⟨s3, hs3, hp3⟩, m0, hm0, m1, hm1, m2, hm2, m3, hm3,
    d0, hd0, d1, hd1, d2, hd2, d3, hd3, d4, hd4, d5, hd5, d6, hd6, heq⟩ := h
  injection heq with hfn hrep
  subst hrep
  subst hfn
  simp only [lineToken, getD_eq_of_get?_eq_some _ hl1, getD_eq_of_get?_eq_some _ hl4,
    getD_eq_of_get?_eq_some _ hl7, getD_eq_of_get?_eq_some _ hs0, getD_eq_of_get?_eq_some _ hs1,
    getD_eq_of_get?_eq_some _ hs2, getD_eq_of_get?_eq_some _ hs3, getD_eq_of_get?_eq_some _ hm1,
    getD_eq_of_get?_eq_some _ hm2, getD_eq_of_get?_eq_some _ hd1, getD_eq_of_get?_eq_some _ hd2]
  exact ⟨by trivial, hp0, hp1, hp2, hp3, by trivial, by trivial, by trivial, by trivial⟩

theorem parse_ok_lengths {fn text : Str} {r : Str × FileReport}
    (h : parse_odgi_stats_report fn text = Except.ok r) :
    8 ≤ (splitlines text).length
    ∧ 4 ≤ (splitOnChar '\t' ((splitlines text).getD 1 [])).length
    ∧ (∀ i, i < 4 → ∃ s, (splitOnChar '\t' ((splitlines text).getD 1 [])).get? i = some s
        ∧ (parseFloat s).isSome = true)
    ∧ 4 ≤ (splitOnChar '\t' ((splitlines text).getD 4 [])).length
    ∧ 7 ≤ (splitOnChar '\t' ((splitlines text).getD 7 [])).length := by
  obtain ⟨r1, r2⟩ := r
  simp only [parse_odgi_stats_report, compress_stats_data, exceptBind_eq_ok, exceptPure_eq_ok,
    getIdx_eq_ok, getFloat_eq_ok] at h
  obtain ⟨l1, hl1, l4, hl4, l7, hl7, v0, ⟨s0, hs0, hp0⟩, v1, ⟨s1, hs1, hp1⟩, v2, ⟨s2, hs2, hp2⟩,
    v3, ⟨s3, hs3, hp3⟩, m0, hm0, m1, hm1, m2, hm2, m3, hm3,
    d0, hd0, d1, hd1, d2, hd2, d3, hd3, d4, hd4, d5, hd5, d6, hd6, heq⟩ := h
  have e1 : (splitlines text).getD 1 [] = l1 := getD_eq_of_get?_eq_some _ hl1
  have e4 : (splitlines text).getD 4 [] = l4 := getD_eq_of_get?_eq_some _ hl4
  have e7 : (splitlines text).getD 7 [] = l7 := getD_eq_of_get?_eq_some _ hl7
  rw [e1, e4, e7]
  refine ⟨length_le_of_get?_eq_some hl7, length_le_of_get?_eq_some hs3, ?_,
    length_le_of_get?_eq_some hm3, length_le_of_get?_eq_some hd6⟩
  intro i hi
  interval_cases i
  · exact ⟨s0, hs0, by rw [hp0]; rfl⟩
  · exact ⟨s1, hs1, by rw [hp1]; rfl⟩
  · exact ⟨s2, hs2, by rw [hp2]; rfl⟩
  · exact ⟨s3, hs3, by rw [hp3]; rfl⟩

/-- A record's text is well-formed for extraction: at least 8 lines, at
least the expected number of tab-separated fields on lines 1, 4 and 7, and
the first four fields of line 1 numeric. -/
def WellFormedRecord (text : Str) : Prop :=
  8 ≤ (splitlines text).length
  ∧ 4 ≤ (splitOnChar '\t' ((splitlines text).getD 1 [])).length
  ∧ (∀ i, i < 4 → (parseFloat (lineToken text 1 i)).isSome = true)
  ∧ 4 ≤ (splitOnChar '\t' ((splitlines text).getD 4 [])).length
  ∧ 7 ≤ (splitOnChar '\t' ((splitlines text).getD 7 [])).length

instance (text : Str) : Decidable (WellFormedRecord text) := by
  unfold WellFormedRecord
  infer_instance

theorem parse_ok_of_wellFormed (fn text : Str) (h : WellFormedRecord text) :
    ∃ rep, parse_odgi_stats_report fn text = Except.ok (fn, rep) := by
  obtain ⟨hlines, hstats, hnum, hmll, hspnd⟩ := h
  obtain ⟨v0, hv0⟩ := Option.isSome_iff_exists.mp (hnum 0 (by omega))
  obtain ⟨v1, hv1⟩ := Option.isSome_iff_exists.mp (hnum 1 (by omega))
  obtain ⟨v2, hv2⟩ := Option.isSome_iff_exists.mp (hnum 2 (by omega))
  obtain ⟨v3, hv3⟩ := Option.isSome_iff_exists.mp (hnum 3 (by omega))
  refine ⟨⟨⟨v0, v1, v2, v3⟩,
    ⟨lineToken text 4 0, lineToken text 4 1, lineToken text 4 2, lineToken text 4 3⟩,
    ⟨lineToken text 7 0, lineToken text 7 1, lineToken text 7 2, lineToken text 7 3,
     lineToken text 7 4, lineToken text 7 5, lineToken text 7 6⟩⟩, ?_⟩
  simp only [parse_odgi_stats_report, compress_stats_data, exceptBind_eq_ok, exceptPure_eq_ok,
    getIdx_eq_ok, getFloat_eq_ok]
  refine ⟨_, get?_eq_some_getD [] (by omega), _, get?_eq_some_getD [] (by omega),
    _, get?_eq_some_getD [] (by omega),
    v0, ⟨_, get?_eq_some_getD [] (by omega), hv0⟩,
    v1, ⟨_, get?_eq_some_getD [] (by omega), hv1⟩,
    v2, ⟨_, get?_eq_some_getD [] (by omega), hv2⟩,
    v3, ⟨_, get?_eq_some_getD [] (by omega), hv3⟩,
    _, get?_eq_some_getD [] (by omega), _, get?_eq_some_getD [] (by omega),
    _, get?_eq_some_getD [] (by omega), _, get?_eq_some_getD [] (by omega),
    _, get?_eq_some_getD [] (by omega), _, get?_eq_some_getD [] (by omega),
    _, get?_eq_some_getD [] (by omega), _, get?_eq_some_getD [] (by omega),
    _, get?_eq_some_getD [] (by omega), _, get?_eq_some_getD [] (by omega),
    _, get?_eq_some_getD [] (by omega), by trivial⟩

theorem reorderFilenames_perm (names : List Str) :
    List.Perm (reorderFilenames names) names := by
  have hperm : List.Perm (List.insertionSort strOrder names) names :=
    List.perm_insertionSort _ names
  have hdef : reorderFilenames names
      = (List.insertionSort strOrder names).drop ((List.insertionSort strOrder names).length - 2)
        ++ (List.insertionSort strOrder names).take ((List.insertionSort strOrder names).length - 2) :=
    rfl
  rw [hdef]
  refine List.Perm.trans List.perm_append_comm ?_
  rw [List.take_append_drop]
  exact hperm

/-! The claims. -/

/-- C1: for every well-formed input record, extraction succeeds and
produces a FileReport whose four GeneralStats fields (Length, Nodes,
Edges, Paths) equal the floating-point parse of the first four
tab-separated tokens on line index 1 (0-based) of the record's text. -/
theorem odgi_c1 (fn text : Str) (h : WellFormedRecord text) :
    ∃ rep : FileReport,
      parse_odgi_stats_report fn text = Except.ok (fn, rep)
      ∧ parseFloat (lineToken text 1 0) = some rep.generalStats.Length
      ∧ parseFloat (lineToken text 1 1) = some rep.generalStats.Nodes
      ∧ parseFloat (lineToken text 1 2) = some rep.generalStats.Edges
      ∧ parseFloat (lineToken text 1 3) = some rep.generalStats.Paths := by
  obtain ⟨rep, hok⟩ := parse_ok_of_wellFormed fn text h
  obtain ⟨-, h0, h1, h2, h3, -, -, -, -⟩ := parse_ok_spec hok
  exact ⟨rep, hok, h0, h1, h2, h3⟩

/-- Witness for C1 at the documented sample record. -/
theorem odgi_c1_witness :
    WellFormedRecord sampleText
    ∧ ∃ rep : FileReport,
        parse_odgi_stats_report (str "x.seqwish.og.tsv") sampleText
          = Except.ok (str "x.seqwish.og.tsv", rep)
        ∧ parseFloat (lineToken sampleText 1 0) = some rep.generalStats.Length
        ∧ parseFloat (lineToken sampleText 1 1) = some rep.generalStats.Nodes
        ∧ parseFloat (lineToken sampleText 1 2) = some rep.generalStats.Edges
        ∧ parseFloat (lineToken sampleText 1 3) = some rep.generalStats.Paths :=
  ⟨by decide, odgi_c1 (str "x.seqwish.og.tsv") sampleText (by decide)⟩

/-- C6: extraction is atomic per record — if the record's text has fewer
than 8 lines, or a general-stats field on line index 1 is not numeric,
extraction fails with a FormatError and the ReportStore gains no entry for
the record. -/
theorem odgi_c6 (store : ReportStore) (fn text : Str)
    (h : (splitlines text).length < 8
        ∨ ∃ i, i < 4 ∧ ∃ s, (splitOnChar '\t' ((splitlines text).getD 1 [])).get? i = some s
            ∧ parseFloat s = none) :
    ∃ e : FormatError, parse_odgi_stats_report fn text = Except.error e
      ∧ processRecord store fn text = Except.error e := by
  have hnot : ∀ r, parse_odgi_stats_report fn text ≠ Except.ok r := by
    rintro r hok
    rcases h with hshort | ⟨i, hi4, s, hs, hnone⟩
    · have := (parse_ok_lengths hok).1
      omega
    · obtain ⟨s', hs', hsome⟩ := (parse_ok_lengths hok).2.2.1 i hi4
      rw [hs] at hs'
      injection hs' with he
      rw [← he, hnone] at hsome
      simp at hsome
  obtain ⟨e, he⟩ := except_not_ok_error _ hnot
  refine ⟨e, he, ?_⟩
  simp only [processRecord]
  rw [he]
  rfl

/-- Witness for C6 at a two-line record. -/
theorem odgi_c6_witness :
    ((splitlines (str "length\tnodes\tedges\tpaths\n8778\t168\t243\t35")).length < 8
      ∨ ∃ i, i < 4 ∧ ∃ s,
          (splitOnChar '\t' ((splitlines (str "length\tnodes\tedges\tpaths\n8778\t168\t243\t35")).getD 1 [])).get? i = some s
          ∧ parseFloat s = none)
    ∧ ∃ e : FormatError,
        parse_odgi_stats_report (str "short.seqwish.og.tsv") (str "length\tnodes\tedges\tpaths\n8778\t168\t243\t35") = Except.error e
        ∧ processRecord [] (str "short.seqwish.og.tsv") (str "length\tnodes\tedges\tpaths\n8778\t168\t243\t35") = Except.error e :=
  ⟨Or.inl (by decide),
   odgi_c6 [] (str "short.seqwish.og.tsv") (str "length\tnodes\tedges\tpaths\n8778\t168\t243\t35") (Or.inl (by decide))⟩

/-- C7 counterexample: on a record whose line index 1 splits into five
tab-separated fields (more than the expected four), extraction does not
fail — it succeeds and ignores the extra field. -/
theorem odgi_c7_counterexample :
    (splitOnChar '\t' ((splitlines fiveFieldText).getD 1 [])).length = 5
    ∧ parse_odgi_stats_report (str "x.seqwish.og.tsv") fiveFieldText
        = Except.ok (str "x.seqwish.og.tsv", fiveFieldReport) := by
  decide

/-- C7 as amended: extraction fails with a FormatError whenever a
designated line (index 1, 4 or 7) splits on tabs into fewer than the
expected field count (4, 4 and 7 fields respectively); fields beyond the
expected count are ignored without error. -/
theorem odgi_c7_amended (fn text : Str)
    (hshort : (splitOnChar '\t' ((splitlines text).getD 1 [])).length < 4
        ∨ (splitOnChar '\t' ((splitlines text).getD 4 [])).length < 4
        ∨ (splitOnChar '\t' ((splitlines text).getD 7 [])).length < 7) :
    ∃ e : FormatError, parse_odgi_stats_report fn text = Except.error e := by
  have hnot : ∀ r, parse_odgi_stats_report fn text ≠ Except.ok r := by
    rintro r hok
    obtain ⟨-, ha, -, hb, hc⟩ := parse_ok_lengths hok
    rcases hshort with h | h | h <;> omega
  exact except_not_ok_error _ hnot

/-- Witness for the amended C7: line index 7 of the sample text truncated
to three fields makes extraction fail. -/
theorem odgi_c7_amended_witness :
    ((splitOnChar '\t' ((splitlines (str "length\tnodes\tedges\tpaths\n8778\t168\t243\t35\n#mean_links_length\npath\tx\ty\tz\nall_paths\t9.75053\t497.321\t942\n#sum_of_path_node_distances\npath\tx\ty\nall_paths\t20.0686\t19.5609")).getD 1 [])).length < 4
      ∨ (splitOnChar '\t' ((splitlines (str "length\tnodes\tedges\tpaths\n8778\t168\t243\t35\n#mean_links_length\npath\tx\ty\tz\nall_paths\t9.75053\t497.321\t942\n#sum_of_path_node_distances\npath\tx\ty\nall_paths\t20.0686\t19.5609")).getD 4 [])).length < 4
      ∨ (splitOnChar '\t' ((splitlines (str "length\tnodes\tedges\tpaths\n8778\t168\t243\t35\n#mean_links_length\npath\tx\ty\tz\nall_paths\t9.75053\t497.321\t942\n#sum_of_path_node_distances\npath\tx\ty\nall_paths\t20.0686\t19.5609")).getD 7 [])).length < 7)
    ∧ ∃ e : FormatError,
        parse_odgi_stats_report (str "x.seqwish.og.tsv") (str "length\tnodes\tedges\tpaths\n8778\t168\t243\t35\n#mean_links_length\npath\tx\ty\tz\nall_paths\t9.75053\t497.321\t942\n#sum_of_path_node_distances\npath\tx\ty\nall_paths\t20.0686\t19.5609") = Except.error e :=
  ⟨by decide,
   odgi_c7_amended (str "x.seqwish.og.tsv") (str "length\tnodes\tedges\tpaths\n8778\t168\t243\t35\n#mean_links_length\npath\tx\ty\tz\nall_paths\t9.75053\t497.321\t942\n#sum_of_path_node_distances\npath\tx\ty\nall_paths\t20.0686\t19.5609") (by decide)⟩

/-- C2: group-identifier derivation is a pure function of the filename —
`seqwish` when the filename contains `seqwish.og`, else `smooth` when it
contains `smooth`, else the first dot-separated segment containing
`consensus@`; in particular on the three documented examples. -/
theorem odgi_c2 :
    (∀ fn : Str, containsSub fn (str "seqwish.og") = true →
        strip_file_name fn = Except.ok (str "seqwish"))
    ∧ (∀ fn : Str, containsSub fn (str "seqwish.og") = false →
        containsSub fn (str "smooth") = true →
        strip_file_name fn = Except.ok (str "smooth"))
    ∧ (∀ fn seg : Str, ∀ pre rest : List Str,
        containsSub fn (str "seqwish.og") = false →
        containsSub fn (str "smooth") = false →
        splitOnChar '.' fn = pre ++ seg :: rest →
        (∀ x ∈ pre, containsSub x (str "consensus@") = false) →
        containsSub seg (str "consensus@") = true →
        strip_file_name fn = Except.ok seg)
    ∧ strip_file_name (str "sample.seqwish.og.tsv") = Except.ok (str "seqwish")
    ∧ strip_file_name (str "sample.smooth.fa.tsv") = Except.ok (str "smooth")
    ∧ strip_file_name (str "x.consensus@1.tsv") = Except.ok (str "consensus@1") := by
  refine ⟨?_, ?_, ?_, by decide, by decide, by decide⟩
  · intro fn h
    simp [strip_file_name, h]
  · intro fn h1 h2
    simp [strip_file_name, h1, h2]
  · intro fn seg pre rest h1 h2 hsplit hpre hseg
    have hfilpre : pre.filter (fun e => containsSub e (str "consensus@")) = [] :=
      List.filter_eq_nil_iff.mpr (fun a ha => by rw [hpre a ha]; simp)
    simp only [strip_file_name, h1, h2, hsplit, List.filter_append, hfilpre, List.nil_append]
    rw [List.filter_cons_of_pos (p := fun e => containsSub e (str "consensus@")) hseg]
    simp

/-- Witness for C2's conditional clauses at concrete filenames. -/
theorem odgi_c2_witness :
    strip_file_name (str "graph.seqwish.og") = Except.ok (str "seqwish")
    ∧ strip_file_name (str "graph.smooth.gfa") = Except.ok (str "smooth")
    ∧ strip_file_name (str "g.consensus@100.gfa") = Except.ok (str "consensus@100") :=
  ⟨odgi_c2.1 (str "graph.seqwish.og") (by decide),
   odgi_c2.2.1 (str "graph.smooth.gfa") (by decide) (by decide),
   odgi_c2.2.2.1 (str "g.consensus@100.gfa") (str "consensus@100")
     [str "g"] [str "gfa"] (by decide) (by decide) (by decide) (by decide) (by decide)⟩

/-- C3: on a filename matching none of the three naming conventions,
identifier derivation logs the unknown-naming-convention error and
terminates the process with a non-zero exit status, and never returns a
value. -/
theorem odgi_c3 (fn : Str)
    (h1 : containsSub fn (str "seqwish.og") = false)
    (h2 : containsSub fn (str "smooth") = false)
    (h3 : ∀ seg ∈ splitOnChar '.' fn, containsSub seg (str "consensus@") = false) :
    strip_file_name fn = Except.error unknownNameExit
    ∧ unknownNameExit.exitCode ≠ 0
    ∧ ∀ u : Str, strip_file_name fn ≠ Except.ok u := by
  have hfil : (splitOnChar '.' fn).filter (fun e => containsSub e (str "consensus@")) = [] :=
    List.filter_eq_nil_iff.mpr (fun a ha => by rw [h3 a ha]; simp)
  refine ⟨?_, by decide, ?_⟩
  · simp [strip_file_name, h1, h2, hfil]
  · intro u
    simp [strip_file_name, h1, h2, hfil]

/-- Witness for C3 at the documented unrecognized filename. -/
theorem odgi_c3_witness :
    strip_file_name (str "random_name.tsv") = Except.error unknownNameExit
    ∧ unknownNameExit.exitCode ≠ 0
    ∧ ∀ u : Str, strip_file_name (str "random_name.tsv") ≠ Except.ok u :=
  odgi_c3 (str "random_name.tsv") (by decide) (by decide) (by decide)

/-- C4: for every store of filenames the iteration order for series
shaping is a permutation of the filenames in which the two
lexicographically-largest stand first and the remainder follows in sorted
order; on the documented example the two largest, `c.consensus@1` and
`b.smooth`, come first, then `a.seqwish.og`. -/
theorem odgi_c4 :
    (∀ names : List Str,
      List.Perm (reorderFilenames names) names
      ∧ (2 ≤ names.length →
          (reorderFilenames names).take 2
              = (List.insertionSort strOrder names).drop (names.length - 2)
          ∧ (reorderFilenames names).drop 2
              = (List.insertionSort strOrder names).take (names.length - 2)
          ∧ List.Sorted strOrder ((reorderFilenames names).drop 2)
          ∧ ∀ x ∈ (reorderFilenames names).drop 2, ∀ y ∈ (reorderFilenames names).take 2,
              strOrder x y))
    ∧ reorderFilenames exampleNames
        = [str "b.smooth", str "c.consensus@1", str "a.seqwish.og"]
    ∧ (str "c.consensus@1") ∈ (reorderFilenames exampleNames).take 2
    ∧ (str "b.smooth") ∈ (reorderFilenames exampleNames).take 2 := by
  refine ⟨?_, by decide, by decide, by decide⟩
  intro names
  have hperm : List.Perm (List.insertionSort strOrder names) names :=
    List.perm_insertionSort _ names
  have hsort : List.Sorted strOrder (List.insertionSort strOrder names) :=
    List.sorted_insertionSort _ names
  have hlen : (List.insertionSort strOrder names).length = names.length := hperm.length_eq
  have hdef : reorderFilenames names
      = (List.insertionSort strOrder names).drop ((List.insertionSort strOrder names).length - 2)
        ++ (List.insertionSort strOrder names).take ((List.insertionSort strOrder names).length - 2) :=
    rfl
  constructor
  · exact reorderFilenames_perm names
  · intro h2
    have hdroplen : ((List.insertionSort strOrder names).drop
        ((List.insertionSort strOrder names).length - 2)).length = 2 := by
      rw [List.length_drop]
      omega
    have htake2 : (reorderFilenames names).take 2
        = (List.insertionSort strOrder names).drop (names.length - 2) := by
      rw [hdef, List.take_left' hdroplen, hlen]
    have hdrop2 : (reorderFilenames names).drop 2
        = (List.insertionSort strOrder names).take (names.length - 2) := by
      rw [hdef, List.drop_left' hdroplen, hlen]
    refine ⟨htake2, hdrop2, ?_, ?_⟩
    · rw [hdrop2]
      exact List.Pairwise.sublist (List.take_sublist _ _) hsort
    · intro x hx y hy
      have hsplit := hsort
      rw [← List.take_append_drop ((List.insertionSort strOrder names).length - 2)
        (List.insertionSort strOrder names)] at hsplit
      have h3 := (List.pairwise_append.mp hsplit).2.2
      rw [hdrop2, ← hlen] at hx
      rw [htake2, ← hlen] at hy
      exact h3 x hx y hy

/-- Witness for C4's universal clause at the documented example names. -/
theorem odgi_c4_witness :
    List.Perm (reorderFilenames exampleNames) exampleNames
    ∧ (reorderFilenames exampleNames).take 2
        = (List.insertionSort strOrder exampleNames).drop (exampleNames.length - 2) :=
  ⟨(odgi_c4.1 exampleNames).1, ((odgi_c4.1 exampleNames).2 (by decide)).1⟩

/-- C10: when the store holds fewer than two filenames, the reordering of
series shaping degenerates without error and the iteration order is simply
the filenames in lexicographically sorted order. -/
theorem odgi_c10 (store : ReportStore) (h : store.length < 2) :
    sorted_filenames store = List.insertionSort strOrder (store.map (fun p => p.1))
    ∧ List.Sorted strOrder (sorted_filenames store) := by
  have heq : sorted_filenames store
      = List.insertionSort strOrder (store.map (fun p => p.1)) := by
    unfold sorted_filenames reorderFilenames
    have hl : (List.insertionSort strOrder (store.map (fun p => p.1))).length < 2 := by
      rw [(List.perm_insertionSort _ _).length_eq, List.length_map]
      exact h
    have h0 : (List.insertionSort strOrder (store.map (fun p => p.1))).length - 2 = 0 := by
      omega
    simp only [h0, List.drop_zero, List.take_zero, List.append_nil]
  exact ⟨heq, heq ▸ List.sorted_insertionSort _ _⟩

/-- Witness for C10 at a one-record store. -/
theorem odgi_c10_witness :
    sorted_filenames sampleStore
        = List.insertionSort strOrder (sampleStore.map (fun p => p.1))
    ∧ List.Sorted strOrder (sorted_filenames sampleStore) :=
  odgi_c10 sampleStore (by decide)

theorem plot_general_go_ok (store : ReportStore) (data : List (Str × GeneralStats))
    (h : ∀ p ∈ store, ∃ u, strip_file_name p.1 = Except.ok u) :
    ∃ res, plot_general_go store data = Except.ok res := by
  induction store generalizing data with
  | nil => exact ⟨data, rfl⟩
  | cons p rest ih =>
    obtain ⟨u, hu⟩ := h p (List.mem_cons_self p rest)
    obtain ⟨res, hres⟩ := ih (dictUpdate data u p.2.generalStats)
      (fun q hq => h q (List.mem_cons_of_mem _ hq))
    refine ⟨res, ?_⟩
    simp only [plot_general_go, hu]
    exact hres

theorem plot_general_go_lookup (store : ReportStore) (data res : List (Str × GeneralStats))
    (uid : Str) (hok : plot_general_go store data = Except.ok res) :
    dictLookup res uid =
      match (store.filter (fun p => decide (strip_file_name p.1 = Except.ok uid))).getLast? with
      | some p => some p.2.generalStats
      | none => dictLookup data uid := by
  induction store generalizing data with
  | nil =>
    simp only [plot_general_go] at hok
    injection hok with h
    subst h
    simp
  | cons p rest ih =>
    simp only [plot_general_go] at hok
    cases hstrip : strip_file_name p.1 with
    | error e =>
      rw [hstrip] at hok
      exact absurd hok (by simp)
    | ok puid =>
      rw [hstrip] at hok
      rw [ih (dictUpdate data puid p.2.generalStats) hok]
      by_cases hp : puid = uid
      · subst hp
        rw [List.filter_cons_of_pos (by simp [hstrip])]
        cases hfr : rest.filter (fun q => decide (strip_file_name q.1 = Except.ok puid)) with
        | nil =>
          simp [dictLookup_dictUpdate_self]
        | cons q l =>
          rw [List.getLast?_cons_cons]
          cases hgl : (q :: l).getLast? with
          | none => exact absurd (List.getLast?_eq_none_iff.mp hgl) (by simp)
          | some x => rfl
      · rw [List.filter_cons_of_neg (by simp [hstrip, hp])]
        cases hfr : rest.filter (fun q => decide (strip_file_name q.1 = Except.ok uid)) with
        | nil => simp [dictLookup_dictUpdate_other data puid uid _ (fun hc => hp hc.symm)]
        | cons q l => rfl

/-- C5: summary-table shaping keys each row by the derived GroupIdentifier
and is last-write-wins on collisions — when every filename in the store
derives an identifier, shaping succeeds (no error) and the row under any
identifier is exactly the general stats of the last record in iteration
order deriving it. -/
theorem odgi_c5 (store : ReportStore)
    (h : ∀ p ∈ store, ∃ u, strip_file_name p.1 = Except.ok u) :
    ∃ res, plot_general_odgi_stats store = Except.ok res
      ∧ ∀ uid : Str,
          dictLookup res uid =
            ((store.filter (fun p => decide (strip_file_name p.1 = Except.ok uid))).getLast?).map
              (fun p => p.2.generalStats) := by
  obtain ⟨res, hres⟩ := plot_general_go_ok store [] h
  refine ⟨res, hres, ?_⟩
  intro uid
  rw [plot_general_go_lookup store [] res uid hres]
  cases (store.filter (fun p => decide (strip_file_name p.1 = Except.ok uid))).getLast? <;>
    simp [dictLookup]

/-- Witness for C5 at a store of two records both deriving `smooth`: the
row equals the second record's general stats. -/
theorem odgi_c5_witness :
    ∃ res, plot_general_odgi_stats collidingStore = Except.ok res
      ∧ dictLookup res (str "smooth") = some otherReport.generalStats := by
  have hh : ∀ p ∈ collidingStore, ∃ u, strip_file_name p.1 = Except.ok u := by
    intro p hp
    rcases List.mem_cons.mp hp with rfl | hp2
    · exact ⟨str "smooth", by decide⟩
    rcases List.mem_cons.mp hp2 with rfl | hp3
    · exact ⟨str "smooth", by decide⟩
    · cases hp3
  obtain ⟨res, hok, hall⟩ := odgi_c5 collidingStore hh
  refine ⟨res, hok, ?_⟩
  rw [hall (str "smooth")]
  decide

/-- C9: extraction does not validate that the mean-link-length or
path-distance fields are numeric — a record with non-numeric strings on
line index 4 is stored in the ReportStore successfully, and the numeric
conversion fails only later, during series shaping. -/
theorem odgi_c9 :
    processRecord [] (str "x.seqwish.og.tsv") badMeanText = Except.ok badMeanStore
    ∧ dictLookup badMeanStore (str "x.seqwish.og.tsv") = some badMeanReport
    ∧ parseFloat badMeanReport.meanLinksLength.In_node_space = none
    ∧ plot_odgi_metrics badMeanStore = Except.error (RunError.format FormatError.valueError) := by
  decide

theorem metricsGo_preserve (store : ReportStore) (fns : List Str) (acc res : OdgiMetricsSeries)
    (hok : metricsGo store fns acc = Except.ok res) (uid : Str)
    (h : ∀ g ∈ fns, strip_file_name g ≠ Except.ok uid) :
    dictLookup res.in_node_space_mean uid = dictLookup acc.in_node_space_mean uid
    ∧ dictLookup res.in_nucleotide_space_mean uid = dictLookup acc.in_nucleotide_space_mean uid
    ∧ dictLookup res.in_node_space_sum uid = dictLookup acc.in_node_space_sum uid
    ∧ dictLookup res.in_nucleotide_space_sum uid = dictLookup acc.in_nucleotide_space_sum uid := by
  induction fns generalizing acc with
  | nil =>
    simp only [metricsGo] at hok
    injection hok with h'
    subst h'
    exact ⟨rfl, rfl, rfl, rfl⟩
  | cons g rest ih =>
    simp only [metricsGo] at hok
    split at hok
    · exact absurd hok (by simp)
    rename_i fs hlk
    split at hok
    · exact absurd hok (by simp)
    rename_i guid hst
    split at hok
    · exact absurd hok (by simp)
    rename_i v1 hv1
    split at hok
    · exact absurd hok (by simp)
    rename_i v2 hv2
    split at hok
    · exact absurd hok (by simp)
    rename_i v3 hv3
    split at hok
    · exact absurd hok (by simp)
    rename_i v4 hv4
    have hguid : guid ≠ uid := by
      intro hc
      exact h g (List.mem_cons_self _ _) (hc ▸ hst)
    have hrec := ih _ hok (fun q hq => h q (List.mem_cons_of_mem _ hq))
    have hne : uid ≠ guid := fun hc => hguid hc.symm
    refine ⟨?_, ?_, ?_, ?_⟩
    · rw [hrec.1]
      exact dictLookup_dictUpdate_other _ _ _ _ hne
    · rw [hrec.2.1]
      exact dictLookup_dictUpdate_other _ _ _ _ hne
    · rw [hrec.2.2.1]
      exact dictLookup_dictUpdate_other _ _ _ _ hne
    · rw [hrec.2.2.2]
      exact dictLookup_dictUpdate_other _ _ _ _ hne

theorem metricsGo_lookup_last (store : ReportStore) (pre : List Str) (fn : Str)
    (post : List Str) (acc res : OdgiMetricsSeries)
    (hok : metricsGo store (pre ++ fn :: post) acc = Except.ok res)
    (uid : Str) (rep : FileReport)
    (huid : strip_file_name fn = Except.ok uid)
    (hpost : ∀ g ∈ post, strip_file_name g ≠ Except.ok uid)
    (hlook : dictLookup store fn = some rep) :
    dictLookup res.in_node_space_mean uid = parseFloat rep.meanLinksLength.In_node_space
    ∧ dictLookup res.in_nucleotide_space_mean uid
        = parseFloat rep.meanLinksLength.In_nucleotide_space
    ∧ dictLookup res.in_node_space_sum uid
        = parseFloat rep.sumOfPathNodesDistances.In_node_space
    ∧ dictLookup res.in_nucleotide_space_sum uid
        = parseFloat rep.sumOfPathNodesDistances.In_nucleotide_space := by
  induction pre generalizing acc with
  | nil =>
    simp only [List.nil_append, metricsGo] at hok
    split at hok
    · exact absurd hok (by simp)
    rename_i fs hlk
    split at hok
    · exact absurd hok (by simp)
    rename_i guid hst
    split at hok
    · exact absurd hok (by simp)
    rename_i v1 hv1
    split at hok
    · exact absurd hok (by simp)
    rename_i v2 hv2
    split at hok
    · exact absurd hok (by simp)
    rename_i v3 hv3
    split at hok
    · exact absurd hok (by simp)
    rename_i v4 hv4
    have hfs : fs = rep := by
      rw [hlook] at hlk
      injection hlk with h'
      exact h'.symm
    subst hfs
    have hguid : guid = uid := by
      rw [huid] at hst
      injection hst with h'
      exact h'.symm
    subst hguid
    have hpres := metricsGo_preserve store post _ res hok guid hpost
    refine ⟨?_, ?_, ?_, ?_⟩
    · rw [hpres.1, dictLookup_dictUpdate_self, hv1]
    · rw [hpres.2.1, dictLookup_dictUpdate_self, hv2]
    · rw [hpres.2.2.1, dictLookup_dictUpdate_self, hv3]
    · rw [hpres.2.2.2, dictLookup_dictUpdate_self, hv4]
  | cons g pre' ih =>
    simp only [List.cons_append, metricsGo] at hok
    split at hok
    · exact absurd hok (by simp)
    split at hok
    · exact absurd hok (by simp)
    split at hok
    · exact absurd hok (by simp)
    split at hok
    · exact absurd hok (by simp)
    split at hok
    · exact absurd hok (by simp)
    split at hok
    · exact absurd hok (by simp)
    exact ih _ hok

/-- C8 counterexample: in a store where two files derive the identifier
`smooth`, the chart series do not map `smooth` to the float parse of the
earlier file's tokens — the later file's values overwrite them. -/
theorem odgi_c8_counterexample :
    (str "a.smooth.fa.tsv", sampleReport) ∈ collidingStore
    ∧ parse_odgi_stats_report (str "a.smooth.fa.tsv") sampleText
        = Except.ok (str "a.smooth.fa.tsv", sampleReport)
    ∧ strip_file_name (str "a.smooth.fa.tsv") = Except.ok (str "smooth")
    ∧ plot_odgi_metrics collidingStore = Except.ok collidingSeries
    ∧ dictLookup collidingSeries.in_node_space_mean (str "smooth")
        ≠ parseFloat (lineToken sampleText 4 1) := by
  decide

/-- C8 as amended: for every file of the store after which no file in
series iteration order derives the same GroupIdentifier — in particular
the last writer on a collision — the four chart series map its
GroupIdentifier to the float parse of tokens 1 and 2 of line index 4
(series `in_node_space_mean` and `in_nucleotide_space_mean`) and of
tokens 1 and 2 of line index 7 (series `in_node_space_sum` and
`in_nucleotide_space_sum`) of the record the file was extracted from;
earlier colliding files are overwritten (last-write-wins). -/
theorem odgi_c8 (store : ReportStore)
    (hnodup : (store.map (fun p => p.1)).Nodup)
    (fn text uid : Str) (rep : FileReport) (pre post : List Str)
    (hmem : (fn, rep) ∈ store)
    (hparse : parse_odgi_stats_report fn text = Except.ok (fn, rep))
    (huid : strip_file_name fn = Except.ok uid)
    (hsplit : sorted_filenames store = pre ++ fn :: post)
    (hpost : ∀ g ∈ post, strip_file_name g ≠ Except.ok uid)
    (series : OdgiMetricsSeries)
    (hok : plot_odgi_metrics store = Except.ok series) :
    dictLookup series.in_node_space_mean uid = parseFloat (lineToken text 4 1)
    ∧ dictLookup series.in_nucleotide_space_mean uid = parseFloat (lineToken text 4 2)
    ∧ dictLookup series.in_node_space_sum uid = parseFloat (lineToken text 7 1)
    ∧ dictLookup series.in_nucleotide_space_sum uid = parseFloat (lineToken text 7 2) := by
  obtain ⟨-, -, -, -, -, hm1, hm2, hd1, hd2⟩ := parse_ok_spec hparse
  have hlook : dictLookup store fn = some rep := dictLookup_of_mem_nodup hmem hnodup
  have hok' : metricsGo store (pre ++ fn :: post) ⟨[], [], [], []⟩ = Except.ok series := by
    rw [← hsplit]
    exact hok
  have h4 := metricsGo_lookup_last store pre fn post ⟨[], [], [], []⟩ series hok'
    uid rep huid hpost hlook
  rw [hm1] at h4
  rw [hm2] at h4
  rw [hd1] at h4
  rw [hd2] at h4
  exact h4

/-- Witness for the amended C8 at the documented sample record: each
series holds a `seqwish` entry whose values read 9.75053, 497.321,
20.0686 and 19.5609. -/
theorem odgi_c8_witness :
    plot_odgi_metrics sampleStore = Except.ok sampleSeries
    ∧ dictLookup sampleSeries.in_node_space_mean (str "seqwish")
        = parseFloat (lineToken sampleText 4 1)
    ∧ dictLookup sampleSeries.in_nucleotide_space_mean (str "seqwish")
        = parseFloat (lineToken sampleText 4 2)
    ∧ dictLookup sampleSeries.in_node_space_sum (str "seqwish")
        = parseFloat (lineToken sampleText 7 1)
    ∧ dictLookup sampleSeries.in_nucleotide_space_sum (str "seqwish")
        = parseFloat (lineToken sampleText 7 2)
    ∧ (dictLookup sampleSeries.in_node_space_mean (str "seqwish")).map PyFloat.toRat
        = some (9.75053 : ℚ)
    ∧ (dictLookup sampleSeries.in_nucleotide_space_mean (str "seqwish")).map PyFloat.toRat
        = some (497.321 : ℚ)
    ∧ (dictLookup sampleSeries.in_node_space_sum (str "seqwish")).map PyFloat.toRat
        = some (20.0686 : ℚ)
    ∧ (dictLookup sampleSeries.in_nucleotide_space_sum (str "seqwish")).map PyFloat.toRat
        = some (19.5609 : ℚ) := by
  have h := odgi_c8 sampleStore (by decide) (str "x.seqwish.og.tsv") sampleText
    (str "seqwish") sampleReport [] [] (by decide) (by decide) (by decide) (by decide)
    (by decide) sampleSeries (by decide)
  refine ⟨by decide, h.1, h.2.1, h.2.2.1, h.2.2.2, ?_, ?_, ?_, ?_⟩ <;>
    · simp only [sampleSeries, dictLookup]
      norm_num [PyFloat.toRat]
